import Mathlib

/-!
Verification model of the client-side distributed transaction coordinator
(`yb/client/transaction.cc`, class `YBTransaction::Impl`).

The coordinator is embedded as a pure state machine.  Each method of the
implementation class becomes a Lean function from `ImplState` to a new
`ImplState` together with a list of observable `Event`s: RPCs that were
registered and started, callbacks that were invoked, waiter continuations
that fired, and the single status-shard pick request.  In-flight RPC
completions (`StatusTabletPicked`, `LookupTabletDone`, `HeartbeatDone`)
are modelled as externally driven actions, so an arbitrary interleaving of
public calls and RPC completions is a `List Action` folded through `step`.

Parts of the source deliberately elided, none of which carry logic relevant
here: logging, the RPC handle bookkeeping (`Register`/`Unregister`/handle
fields), clock propagation (`UpdateClock`), the `TEST_GetMetadata` future,
and the test-only flag `transaction_disable_heartbeat_in_tests` (modelled
at its default value `false`).  Tablet ids are abstracted to `Nat`, hybrid
times to `Nat`, and status payload messages to `String`.

The `ConsistentReadPoint` class is not part of this repository's sources;
only its call sites are.  Its child-merge behaviour (`local_limits` union,
`restart_required` or) is modelled from the spec where needed and marked
as such on the corresponding definitions.
-/

namespace YBTxn

/-- Status of an operation, mirroring `yb::Status`: `ok` plus the error
codes that `transaction.cc` distinguishes (`IsTryAgain`, `IsExpired`,
`IllegalState`) and a catch-all for any other error. -/
inductive Status where
  | ok
  | tryAgain (msg : String)
  | expired (msg : String)
  | illegalState (msg : String)
  | networkError (msg : String)
deriving DecidableEq

/-- Mirrors `Status::ok()`. -/
def Status.isOk : Status → Bool
  | .ok => true
  | _ => false

/-- Mirrors `Status::IsTryAgain()`. -/
def Status.isTryAgain : Status → Bool
  | .tryAgain _ => true
  | _ => false

/-- Mirrors `Status::IsExpired()`. -/
def Status.isExpired : Status → Bool
  | .expired _ => true
  | _ => false

/-- Mirrors the internal enum `TransactionState = (kRunning)(kAborted)(kCommitted)`. -/
inductive TransactionState where
  | kRunning
  | kAborted
  | kCommitted
deriving DecidableEq

/-- Mirrors the wire enum `TransactionStatus` values used by the coordinator. -/
inductive TransactionStatus where
  | CREATED
  | PENDING
  | COMMITTED
deriving DecidableEq

/-- A waiter continuation stored in `waiters_`.  `ext` is a caller-supplied
waiter (the `Waiter` argument of `Prepare`); the others are the bound
member continuations enqueued by `Commit`, `Abort` and `PrepareChild`
when the transaction is not ready. -/
inductive Waiter where
  | ext (id : Nat)
  | commitW
  | abortW
  | prepChild (cb : Nat)
deriving DecidableEq

/-- Observable effects of a method call. -/
inductive Event where
  /-- A waiter continuation from `waiters_` was invoked with this status. -/
  | waiterRun (w : Waiter) (st : Status)
  /-- The commit callback (either the stored `commit_callback_` or the
  argument of a rejected `Commit`) was invoked with this status. -/
  | commitCb (st : Status)
  /-- A `PrepareChild` callback was invoked with an error status. -/
  | childCb (cb : Nat) (st : Status)
  /-- A `PrepareChild` callback was invoked with the serialized
  `ChildTransactionDataPB` envelope. -/
  | childData (cb : Nat)
  /-- An `UpdateTransaction(COMMITTED)` RPC carrying these participant
  tablet ids was registered and started. -/
  | rpcCommit (tablets : List Nat)
  /-- An `AbortTransaction` RPC was registered and started. -/
  | rpcAbort
  /-- An `UpdateTransaction` heartbeat RPC with this status was registered
  and started. -/
  | rpcHeartbeat (hs : TransactionStatus)
  /-- `manager_->PickStatusTablet` was called (first `RequestStatusTablet`). -/
  | pickRequested
  /-- `LookupTabletById` was called for this picked tablet. -/
  | lookupRequested (t : Nat)
  /-- The next `PENDING` heartbeat was scheduled on the reactor. -/
  | scheduleHeartbeat
  /-- The `CHECK(it != tablets_.end())` in `Flushed` failed for this tablet. -/
  | checkFailed (t : Nat)
deriving DecidableEq

/-- True exactly for `checkFailed` events. -/
def Event.isCheckFailed : Event → Bool
  | .checkFailed _ => true
  | _ => false

/-- Association-list lookup keyed by id; models `std::unordered_map::find`
(keys in the map are unique, so first match is the match). -/
def lookupById {α : Type} : List (Nat × α) → Nat → Option α
  | [], _ => none
  | p :: rest, t => if p.1 = t then some p.2 else lookupById rest t

/-- The participant table `tablets_ : std::unordered_map<TabletId, TabletState>`;
`TabletState` is just its `has_parameters` bit. -/
abbrev TabletStates := List (Nat × Bool)

/-- An entry of `internal::InFlightOps` as `Flushed` consumes it: the
destination tablet id and the `yb_op->succeeded()` bit. -/
structure InFlightOp where
  tablet : Nat
  succeeded : Bool
deriving DecidableEq

/-- The serialized `ChildTransactionResultPB`: per-tablet
`has_parameters` records plus the read-point delta (the latter modelled
from the spec, see `ApplyChildResult`). -/
structure ChildResult where
  tablets : List (Nat × Bool)
  local_limits : List (Nat × Nat)
  restart_required : Bool
deriving DecidableEq

/-- State of `YBTransaction::Impl`: the fields of the class that carry the
control logic (`state_`, `child_`, `ready_`, `requested_status_tablet_`,
`error_`, `status_tablet_`, `tablets_`, `waiters_`, `commit_callback_`)
plus the two read-point components the spec exposes (`restart_required`,
`local_limits`). -/
structure ImplState where
  state : TransactionState
  child : Bool
  ready : Bool
  requested_status_tablet : Bool
  error : Status
  status_tablet : Option Nat
  tablets : TabletStates
  waiters : List Waiter
  commit_callback : Bool
  restart_required : Bool
  local_limits : List (Nat × Nat)
deriving DecidableEq

/-- State after the constructors: `kRunning`, no error, empty participant
table; `ready_` is `true` at construction only for children. -/
def initialImpl (child : Bool) : ImplState :=
  { state := .kRunning
    child := child
    ready := child
    requested_status_tablet := false
    error := .ok
    status_tablet := none
    tablets := []
    waiters := []
    commit_callback := false
    restart_required := false
    local_limits := [] }

/-- Mirrors `Impl::SetError`: record the first error and move to
`kAborted`; later errors are dropped. -/
def SetError (status : Status) (s : ImplState) : ImplState :=
  if s.error.isOk then { s with error := status, state := .kAborted } else s

/-- Mirrors `Impl::CheckRunning`: `Ok` while `kRunning`; otherwise the
latched `error_` if set, else a generic `IllegalState`. -/
def CheckRunning (s : ImplState) : Status :=
  if s.state ≠ .kRunning then
    if s.error.isOk then .illegalState "Transaction already completed" else s.error
  else .ok

/-- Mirrors `Impl::RequestStatusTablet`: single-shot compare-exchange on
`requested_status_tablet_`; only the winning call asks the manager to
pick a status tablet. -/
def RequestStatusTablet (s : ImplState) : ImplState × List Event :=
  if s.requested_status_tablet then (s, [])
  else ({ s with requested_status_tablet := true }, [.pickRequested])

/-- Mirrors `Impl::DoAbort`: on a non-ok status only a warning is logged;
otherwise the `AbortTransaction` RPC is registered and started. -/
def DoAbort (status : Status) (s : ImplState) : ImplState × List Event :=
  if !status.isOk then (s, [])
  else (s, [.rpcAbort])

/-- Mirrors `Impl::DoCommit`: a non-ok status goes straight to the commit
callback; an empty participant table is aborted instead of committed and
the callback receives `Ok`; otherwise the `UpdateTransaction(COMMITTED)`
RPC carries every key of `tablets_`. -/
def DoCommit (status : Status) (s : ImplState) : ImplState × List Event :=
  if !status.isOk then (s, [.commitCb status])
  else if s.tablets.isEmpty then
    let r := DoAbort .ok s
    (r.1, r.2 ++ [.commitCb .ok])
  else (s, [.rpcCommit (s.tablets.map (fun p => p.1))])

/-- Mirrors `Impl::DoPrepareChild`: errors go to the callback; otherwise
the callback receives the serialized child envelope. -/
def DoPrepareChild (status : Status) (cb : Nat) (s : ImplState) : ImplState × List Event :=
  if !status.isOk then (s, [.childCb cb status])
  else (s, [.childData cb])

/-- Invocation of one stored waiter continuation with a status: an
external waiter just observes the status; the bound continuations run
`DoCommit` / `DoAbort` / `DoPrepareChild`. -/
def fireWaiter (s : ImplState) (w : Waiter) (status : Status) : ImplState × List Event :=
  let r : ImplState × List Event :=
    match w with
    | .ext _ => (s, [])
    | .commitW => DoCommit status s
    | .abortW => DoAbort status s
    | .prepChild cb => DoPrepareChild status cb s
  (r.1, .waiterRun w status :: r.2)

/-- Invocation of a drained waiters list, in insertion order. -/
def fireWaiters (s : ImplState) (ws : List Waiter) (status : Status) : ImplState × List Event :=
  match ws with
  | [] => (s, [])
  | w :: rest =>
    let r1 := fireWaiter s w status
    let r2 := fireWaiters r1.1 rest status
    (r2.1, r1.2 ++ r2.2)

/-- Mirrors `Impl::SendHeartbeat` with the test-only short-circuit flag at
its default (`false`) and the weak pointer successfully upgraded: nothing
is sent once the transaction left `kRunning`. -/
def SendHeartbeat (hs : TransactionStatus) (s : ImplState) : ImplState × List Event :=
  if s.state ≠ .kRunning then (s, [])
  else (s, [.rpcHeartbeat hs])

/-- Mirrors `Impl::HeartbeatDone`.  On success of the `CREATED` heartbeat:
`ready_` flips to true, `waiters_` is swapped out under the lock and each
waiter fires with `Ok` in insertion order, then the next `PENDING`
heartbeat is scheduled.  On success of other heartbeats only the next one
is scheduled.  On an `Expired` failure `SetError` latches the status and
nothing further is sent; on any other failure the same heartbeat status
is re-sent immediately. -/
def HeartbeatDone (status : Status) (ts : TransactionStatus) (s : ImplState) :
    ImplState × List Event :=
  if status.isOk then
    if ts = .CREATED then
      let ws := s.waiters
      let s1 : ImplState := { s with ready := true, waiters := [] }
      let r := fireWaiters s1 ws .ok
      (r.1, r.2 ++ [.scheduleHeartbeat])
    else (s, [.scheduleHeartbeat])
  else if status.isExpired then (SetError status s, [])
  else SendHeartbeat ts s

/-- Mirrors `Impl::StatusTabletPicked`: a successful pick starts the
tablet lookup; a failed pick goes to `SetError`. -/
def StatusTabletPicked (tablet : Except Status Nat) (s : ImplState) : ImplState × List Event :=
  match tablet with
  | .ok t => (s, [.lookupRequested t])
  | .error st => (SetError st s, [])

set_option linter.unusedVariables false in
/-- Mirrors `Impl::LookupTabletDone`.  The source does not examine the
`status` argument: it unconditionally moves `status_tablet_holder_` into
`status_tablet_` (empty when the lookup failed) and proceeds to send the
`CREATED` heartbeat. -/
def LookupTabletDone (status : Status) (holder : Option Nat) (s : ImplState) :
    ImplState × List Event :=
  let s1 : ImplState := { s with status_tablet := holder }
  SendHeartbeat .CREATED s1

/-- The metadata the caller's out-parameter holds after a successful
`Prepare`: either the full `TransactionMetadata` or only the
`transaction_id` field. -/
inductive PrepMeta where
  | full
  | idOnly
deriving DecidableEq

/-- The loop body of `Prepare` over the ops: ensure a `TabletState` entry
for the op's tablet (fresh entries have `has_parameters = false`) and
accumulate `has_tablets_without_parameters`. -/
def prepareTablets : TabletStates → Bool → List Nat → TabletStates × Bool
  | ts, h, [] => (ts, h)
  | ts, h, t :: rest =>
    match lookupById ts t with
    | none => prepareTablets (ts ++ [(t, false)]) true rest
    | some hp => prepareTablets ts (h || !hp) rest

/-- Result of `Prepare`: the boolean return value, the out-parameter
(`none` when `Prepare` returned false and left it untouched), the new
state, and the events. -/
structure PrepareOut where
  returned : Bool
  metadata : Option PrepMeta
  state : ImplState
  events : List Event

/-- Mirrors `Impl::Prepare`.  Not ready: enqueue the waiter, trigger
status-tablet resolution, return `false`.  Ready: ensure participant
entries for every op and fill the out-metadata — full metadata exactly
when some op targets a tablet that was absent or uninformed. -/
def Prepare (ops : List Nat) (w : Nat) (s : ImplState) : PrepareOut :=
  if !s.ready then
    let s1 : ImplState := { s with waiters := s.waiters ++ [.ext w] }
    let r := RequestStatusTablet s1
    { returned := false, metadata := none, state := r.1, events := r.2 }
  else
    let r := prepareTablets s.tablets false ops
    { returned := true
      metadata := some (if r.2 then .full else .idOnly)
      state := { s with tablets := r.1 }
      events := [] }

/-- Sets `has_parameters = true` on the entry with this key (the entry is
present whenever the `CHECK` in `Flushed` passes). -/
def setHasParameters : TabletStates → Nat → TabletStates
  | [], _ => []
  | p :: rest, t => if p.1 = t then (p.1, true) :: rest else p :: setHasParameters rest t

/-- The loop of `Flushed` on a successful batch: each succeeded op marks
its tablet's `has_parameters`; a missing entry trips the
`CHECK(it != tablets_.end())`, modelled as a `checkFailed` event. -/
def flushTablets : TabletStates → List InFlightOp → TabletStates × List Event
  | ts, [] => (ts, [])
  | ts, op :: rest =>
    if op.succeeded then
      match lookupById ts op.tablet with
      | some _ => flushTablets (setHasParameters ts op.tablet) rest
      | none =>
        let r := flushTablets ts rest
        (r.1, .checkFailed op.tablet :: r.2)
    else flushTablets ts rest

/-- Mirrors `Impl::Flushed`: on `Ok` mark succeeded ops' tablets; on a
`TryAgain` latch the error via `SetError`; any other error is ignored
here (it is handled on the batch's own callback path). -/
def Flushed (ops : List InFlightOp) (status : Status) (s : ImplState) :
    ImplState × List Event :=
  if status.isOk then
    let r := flushTablets s.tablets ops
    ({ s with tablets := r.1 }, r.2)
  else if status.isTryAgain then (SetError status s, [])
  else (s, [])

/-- Mirrors `Impl::Commit`: reject when not running, a child, or restart
is required; otherwise store the callback, move to `kCommitted`, and
either run `DoCommit` (ready) or enqueue it as a waiter and trigger
resolution (not ready). -/
def Commit (s : ImplState) : ImplState × List Event :=
  let st := CheckRunning s
  if !st.isOk then (s, [.commitCb st])
  else if s.child then
    (s, [.commitCb (.illegalState "Commit of child transaction is not allowed")])
  else if s.restart_required then
    (s, [.commitCb (.illegalState "Commit of transaction that requires restart is not allowed")])
  else
    let s1 : ImplState := { s with state := .kCommitted, commit_callback := true }
    if !s1.ready then
      let s2 : ImplState := { s1 with waiters := s1.waiters ++ [.commitW] }
      RequestStatusTablet s2
    else DoCommit .ok s1

/-- Mirrors `Impl::Abort`: a no-op when already completed or on a child;
otherwise move to `kAborted` and run or enqueue `DoAbort`. -/
def Abort (s : ImplState) : ImplState × List Event :=
  if s.state ≠ .kRunning then (s, [])
  else if s.child then (s, [])
  else
    let s1 : ImplState := { s with state := .kAborted }
    if !s1.ready then
      let s2 : ImplState := { s1 with waiters := s1.waiters ++ [.abortW] }
      RequestStatusTablet s2
    else DoAbort .ok s1

/-- Mirrors `Impl::PrepareChild`: reject when not running or restart is
required; otherwise run or enqueue `DoPrepareChild`. -/
def PrepareChild (cb : Nat) (s : ImplState) : ImplState × List Event :=
  let st := CheckRunning s
  if !st.isOk then (s, [.childCb cb st])
  else if s.restart_required then (s, [.childCb cb (.illegalState "Restart required")])
  else if !s.ready then
    let s1 : ImplState := { s with waiters := s.waiters ++ [.prepChild cb] }
    RequestStatusTablet s1
  else DoPrepareChild .ok cb s

/-- Mirrors `Impl::FinishChild`: only a running child may finish; it moves
to `kCommitted` (commit proper is the parent's job) and returns the
participant records plus the read-point delta (the latter modelled from
the spec: the child's `local_limits` additions and restart flag). -/
def FinishChild (s : ImplState) : Except Status ChildResult × ImplState :=
  let st := CheckRunning s
  if !st.isOk then (.error st, s)
  else if !s.child then (.error (.illegalState "Finish child of non child transaction"), s)
  else
    (.ok { tablets := s.tablets
           local_limits := s.local_limits
           restart_required := s.restart_required },
     { s with state := .kCommitted })

/-- Mirrors `TabletState::MergeFromPB` at one key of the participant
table: `has_parameters = has_parameters || source.has_parameters()`, with
`operator[]` default-constructing an uninformed entry for a new key. -/
def mergeTabletPB : TabletStates → Nat → Bool → TabletStates
  | [], t, hp => [(t, hp)]
  | p :: rest, t, hp =>
    if p.1 = t then (p.1, p.2 || hp) :: rest else p :: mergeTabletPB rest t hp

/-- The participant-table loop of `ApplyChildResult`. -/
def mergeTablets : TabletStates → List (Nat × Bool) → TabletStates
  | ts, [] => ts
  | ts, (t, hp) :: rest => mergeTablets (mergeTabletPB ts t hp) rest

/-- Modelled from the spec: `ConsistentReadPoint::ApplyChildTransactionResult`
is not part of this repository's sources; per the spec the read-point
merge takes the union of `local_limits` (existing keys keep their value)
and ors the restart flags.  This is the `local_limits` union. -/
def applyLocalLimits : List (Nat × Nat) → List (Nat × Nat) → List (Nat × Nat)
  | m, [] => m
  | m, (k, v) :: rest =>
    applyLocalLimits
      (match lookupById m k with
       | some _ => m
       | none => m ++ [(k, v)]) rest

/-- Mirrors `Impl::ApplyChildResult`: only a running non-child may apply;
each tablet record of the result is merged via `MergeFromPB`, and the
read point is merged (union of `local_limits`, or of `restart_required`;
the read-point part modelled from the spec, see `applyLocalLimits`). -/
def ApplyChildResult (r : ChildResult) (s : ImplState) : Except Status Unit × ImplState :=
  let st := CheckRunning s
  if !st.isOk then (.error st, s)
  else if s.child then (.error (.illegalState "Apply child result of child transaction"), s)
  else
    (.ok (),
     { s with
        tablets := mergeTablets s.tablets r.tablets
        local_limits := applyLocalLimits s.local_limits r.local_limits
        restart_required := s.restart_required || r.restart_required })

/-- Mirrors `Impl::SetupRestart` on the original transaction: a running
original moves to `kAborted` and fires the abort RPC (its read point is
moved into the sibling; the moved-from read point is not modelled). -/
def SetupRestart (s : ImplState) : ImplState × List Event :=
  if s.state ≠ .kRunning then (s, [])
  else
    let s1 : ImplState := { s with state := .kAborted }
    DoAbort .ok s1

/-- One externally observable action on the coordinator: a public method
call or the completion of an in-flight RPC. -/
inductive Action where
  | prepare (ops : List Nat) (w : Nat)
  | flushed (ops : List InFlightOp) (st : Status)
  | commit
  | abort
  | prepareChild (cb : Nat)
  | finishChild
  | applyChildResult (r : ChildResult)
  | setupRestart
  | statusTabletPicked (t : Except Status Nat)
  | lookupTabletDone (st : Status) (holder : Option Nat)
  | heartbeatDone (st : Status) (ts : TransactionStatus)

/-- Dispatch of one action. -/
def step (s : ImplState) : Action → ImplState × List Event
  | .prepare ops w => ((Prepare ops w s).state, (Prepare ops w s).events)
  | .flushed ops st => Flushed ops st s
  | .commit => Commit s
  | .abort => Abort s
  | .prepareChild cb => PrepareChild cb s
  | .finishChild => ((FinishChild s).2, [])
  | .applyChildResult r => ((ApplyChildResult r s).2, [])
  | .setupRestart => SetupRestart s
  | .statusTabletPicked t => StatusTabletPicked t s
  | .lookupTabletDone st holder => LookupTabletDone st holder s
  | .heartbeatDone st ts => HeartbeatDone st ts s

/-- A run of the coordinator over a sequence of actions, collecting all
events in order. -/
def runImpl (s : ImplState) : List Action → ImplState × List Event
  | [] => (s, [])
  | a :: rest =>
    let r1 := step s a
    let r2 := runImpl r1.1 rest
    (r2.1, r1.2 ++ r2.2)

/-- The waiter invocations contained in an event list, in order. -/
def firedWaiters (es : List Event) : List (Waiter × Status) :=
  es.filterMap (fun e =>
    match e with
    | .waiterRun w st => some (w, st)
    | _ => none)

/-! ### Basic lemmas about the continuation runners -/

theorem DoAbort_fst (status : Status) (s : ImplState) : (DoAbort status s).1 = s := by
  unfold DoAbort; split <;> rfl

theorem DoCommit_fst (status : Status) (s : ImplState) : (DoCommit status s).1 = s := by
  unfold DoCommit
  split
  · rfl
  · split
    · simp [DoAbort_fst]
    · rfl

theorem DoPrepareChild_fst (status : Status) (cb : Nat) (s : ImplState) :
    (DoPrepareChild status cb s).1 = s := by
  unfold DoPrepareChild; split <;> rfl

theorem fireWaiter_fst (s : ImplState) (w : Waiter) (status : Status) :
    (fireWaiter s w status).1 = s := by
  unfold fireWaiter
  cases w <;> simp [DoCommit_fst, DoAbort_fst, DoPrepareChild_fst]

theorem fireWaiters_fst (ws : List Waiter) (s : ImplState) (status : Status) :
    (fireWaiters s ws status).1 = s := by
  induction ws generalizing s with
  | nil => rfl
  | cons w rest ih =>
    unfold fireWaiters
    simp [fireWaiter_fst, ih]

theorem firedWaiters_append (a b : List Event) :
    firedWaiters (a ++ b) = firedWaiters a ++ firedWaiters b := by
  simp [firedWaiters]

theorem firedWaiters_DoAbort (status : Status) (s : ImplState) :
    firedWaiters (DoAbort status s).2 = [] := by
  unfold DoAbort; split <;> simp [firedWaiters]

theorem firedWaiters_DoCommit (status : Status) (s : ImplState) :
    firedWaiters (DoCommit status s).2 = [] := by
  unfold DoCommit
  split
  · simp [firedWaiters]
  · split
    · simp [firedWaiters_append, firedWaiters, DoAbort]
      split <;> simp
    · simp [firedWaiters]

theorem firedWaiters_DoPrepareChild (status : Status) (cb : Nat) (s : ImplState) :
    firedWaiters (DoPrepareChild status cb s).2 = [] := by
  unfold DoPrepareChild; split <;> simp [firedWaiters]

theorem firedWaiters_cons_run (w : Waiter) (st : Status) (es : List Event) :
    firedWaiters (.waiterRun w st :: es) = (w, st) :: firedWaiters es := by
  simp [firedWaiters]

theorem firedWaiters_fireWaiter (s : ImplState) (w : Waiter) (status : Status) :
    firedWaiters (fireWaiter s w status).2 = [(w, status)] := by
  cases w with
  | ext id => simp [fireWaiter, firedWaiters]
  | commitW =>
    simp only [fireWaiter, firedWaiters_cons_run, firedWaiters_DoCommit]
  | abortW =>
    simp only [fireWaiter, firedWaiters_cons_run, firedWaiters_DoAbort]
  | prepChild cb =>
    simp only [fireWaiter, firedWaiters_cons_run, firedWaiters_DoPrepareChild]

theorem firedWaiters_fireWaiters (ws : List Waiter) (s : ImplState) (status : Status) :
    firedWaiters (fireWaiters s ws status).2 = ws.map (fun w => (w, status)) := by
  induction ws generalizing s with
  | nil => simp [fireWaiters, firedWaiters]
  | cons w rest ih =>
    unfold fireWaiters
    simp [firedWaiters_append, firedWaiters_fireWaiter, fireWaiter_fst, ih]

/-! ### Association-list lemmas -/

theorem lookupById_append {α : Type} (ts l : List (Nat × α)) (x : Nat) :
    lookupById (ts ++ l) x = (lookupById ts x).or (lookupById l x) := by
  induction ts with
  | nil => simp [lookupById]
  | cons p rest ih =>
    by_cases h : p.1 = x <;> simp [lookupById, h, ih]

/-! ### Lemmas about the `Prepare` participant loop -/

theorem prepareTablets_snd (ops : List Nat) (ts : TabletStates) (h : Bool) :
    (prepareTablets ts h ops).2
      = (h || ops.any (fun t => !((lookupById ts t).getD false))) := by
  induction ops generalizing ts h with
  | nil => simp [prepareTablets]
  | cons t rest ih =>
    unfold prepareTablets
    cases hl : lookupById ts t with
    | none =>
      have hrec := ih (ts ++ [(t, false)]) true
      simp [hrec, hl]
    | some hp =>
      have hrec := ih ts (h || !hp)
      simp [hrec, hl, Bool.or_assoc]

theorem prepareTablets_isSome_mono (ops : List Nat) (ts : TabletStates) (h : Bool) (x : Nat)
    (hx : (lookupById ts x).isSome) :
    (lookupById (prepareTablets ts h ops).1 x).isSome := by
  induction ops generalizing ts h with
  | nil => simpa [prepareTablets] using hx
  | cons t rest ih =>
    unfold prepareTablets
    cases hl : lookupById ts t with
    | none =>
      apply ih
      rw [lookupById_append]
      cases hx2 : lookupById ts x with
      | none => simp [hx2] at hx
      | some v => simp
    | some hp => exact ih ts _ hx

theorem prepareTablets_mem (ops : List Nat) (ts : TabletStates) (h : Bool) (t : Nat)
    (ht : t ∈ ops) :
    (lookupById (prepareTablets ts h ops).1 t).isSome := by
  induction ops generalizing ts h with
  | nil => cases ht
  | cons u rest ih =>
    unfold prepareTablets
    rcases List.mem_cons.mp ht with rfl | hmem
    · cases hl : lookupById ts t with
      | none =>
        apply prepareTablets_isSome_mono
        rw [lookupById_append]
        simp [hl, lookupById]
      | some hp =>
        exact prepareTablets_isSome_mono rest ts _ t (by simp [hl])
    · cases hl : lookupById ts u with
      | none => exact ih _ _ hmem
      | some hp => exact ih _ _ hmem

/-! ### Lemmas about the `Flushed` participant loop -/

theorem lookup_setHasParameters_self (ts : TabletStates) (t : Nat) :
    lookupById (setHasParameters ts t) t = (lookupById ts t).map (fun _ => true) := by
  induction ts with
  | nil => simp [setHasParameters, lookupById]
  | cons p rest ih =>
    by_cases h : p.1 = t <;> simp [setHasParameters, lookupById, h, ih]

theorem lookup_setHasParameters_ne (ts : TabletStates) (t x : Nat) (h : x ≠ t) :
    lookupById (setHasParameters ts t) x = lookupById ts x := by
  have htx : t ≠ x := fun hc => h hc.symm
  induction ts with
  | nil => simp [setHasParameters]
  | cons p rest ih =>
    by_cases hp : p.1 = t
    · simp [setHasParameters, lookupById, hp, htx]
    · by_cases hx : p.1 = x <;> simp [setHasParameters, lookupById, hp, hx, h, ih]

theorem lookup_setHasParameters_isSome (ts : TabletStates) (t x : Nat) :
    (lookupById (setHasParameters ts t) x).isSome = (lookupById ts x).isSome := by
  by_cases h : x = t
  · subst h; rw [lookup_setHasParameters_self]; cases lookupById ts x <;> simp
  · rw [lookup_setHasParameters_ne ts t x h]

theorem flushTablets_isSome (ops : List InFlightOp) (ts : TabletStates) (x : Nat) :
    (lookupById (flushTablets ts ops).1 x).isSome = (lookupById ts x).isSome := by
  induction ops generalizing ts with
  | nil => simp [flushTablets]
  | cons op rest ih =>
    unfold flushTablets
    cases hs : op.succeeded with
    | false => simp [ih]
    | true =>
      simp only
      cases hl : lookupById ts op.tablet with
      | none => simp [ih]
      | some v => simp [ih, lookup_setHasParameters_isSome]

theorem flushTablets_no_check (ops : List InFlightOp) (ts : TabletStates)
    (hpre : ∀ op ∈ ops, op.succeeded = true → (lookupById ts op.tablet).isSome) :
    (flushTablets ts ops).2 = [] := by
  induction ops generalizing ts with
  | nil => simp [flushTablets]
  | cons op rest ih =>
    unfold flushTablets
    cases hs : op.succeeded with
    | false =>
      simp only [hs]
      exact ih ts (fun o ho hso => hpre o (List.mem_cons_of_mem _ ho) hso)
    | true =>
      simp only [hs]
      cases hl : lookupById ts op.tablet with
      | none =>
        have := hpre op (List.mem_cons_self _ _) hs
        simp [hl] at this
      | some v =>
        simp only
        apply ih
        intro o ho hso
        rw [lookup_setHasParameters_isSome]
        exact hpre o (List.mem_cons_of_mem _ ho) hso

theorem flushTablets_keeps_true (ops : List InFlightOp) (ts : TabletStates) (t : Nat)
    (h : lookupById ts t = some true) :
    lookupById (flushTablets ts ops).1 t = some true := by
  induction ops generalizing ts with
  | nil => simpa [flushTablets] using h
  | cons op rest ih =>
    unfold flushTablets
    cases hs : op.succeeded with
    | false => simp only [hs]; exact ih ts h
    | true =>
      simp only [hs]
      cases hl : lookupById ts op.tablet with
      | none => simp only; exact ih ts h
      | some v =>
        simp only
        apply ih
        by_cases hxt : t = op.tablet
        · subst hxt; rw [lookup_setHasParameters_self, h]; rfl
        · rw [lookup_setHasParameters_ne _ _ _ hxt]; exact h

theorem flushTablets_sets (ops : List InFlightOp) (ts : TabletStates) (t : Nat)
    (hex : ∃ op ∈ ops, op.tablet = t ∧ op.succeeded = true)
    (hin : (lookupById ts t).isSome) :
    lookupById (flushTablets ts ops).1 t = some true := by
  induction ops generalizing ts with
  | nil => simp at hex
  | cons op rest ih =>
    unfold flushTablets
    rcases hex with ⟨o, ho, hot, hos⟩
    rcases List.mem_cons.mp ho with rfl | hmem
    · rw [hos]
      simp only
      subst hot
      cases hl : lookupById ts o.tablet with
      | none => simp [hl] at hin
      | some v =>
        simp only
        apply flushTablets_keeps_true
        rw [lookup_setHasParameters_self, hl]
        rfl
    · cases hs : op.succeeded with
      | false => simp only; exact ih ts ⟨o, hmem, hot, hos⟩ hin
      | true =>
        simp only
        cases hl : lookupById ts op.tablet with
        | none => simp only; exact ih ts ⟨o, hmem, hot, hos⟩ hin
        | some v =>
          simp only
          apply ih
          · exact ⟨o, hmem, hot, hos⟩
          · rw [lookup_setHasParameters_isSome]; exact hin

theorem flushTablets_unchanged (ops : List InFlightOp) (ts : TabletStates) (t : Nat)
    (hno : ∀ op ∈ ops, ¬(op.tablet = t ∧ op.succeeded = true)) :
    lookupById (flushTablets ts ops).1 t = lookupById ts t := by
  induction ops generalizing ts with
  | nil => simp [flushTablets]
  | cons op rest ih =>
    unfold flushTablets
    cases hs : op.succeeded with
    | false =>
      simp only [hs]
      exact ih ts (fun o ho => hno o (List.mem_cons_of_mem _ ho))
    | true =>
      simp only [hs]
      have hne : op.tablet ≠ t := fun hc => hno op (List.mem_cons_self _ _) ⟨hc, hs⟩
      cases hl : lookupById ts op.tablet with
      | none => simp only; exact ih ts (fun o ho => hno o (List.mem_cons_of_mem _ ho))
      | some v =>
        simp only [if_true]
        rw [ih _ (fun o ho => hno o (List.mem_cons_of_mem _ ho))]
        exact lookup_setHasParameters_ne ts op.tablet t fun hc => hne hc.symm

/-! ### Lemmas about the child-result merges -/

theorem lookup_mergeTabletPB_self (ts : TabletStates) (t : Nat) (hp : Bool) :
    lookupById (mergeTabletPB ts t hp) t = some ((lookupById ts t).getD false || hp) := by
  induction ts with
  | nil => simp [mergeTabletPB, lookupById]
  | cons p rest ih =>
    by_cases h : p.1 = t <;> simp [mergeTabletPB, lookupById, h, ih]

theorem lookup_mergeTabletPB_ne (ts : TabletStates) (t x : Nat) (hp : Bool) (h : x ≠ t) :
    lookupById (mergeTabletPB ts t hp) x = lookupById ts x := by
  have htx : t ≠ x := fun hc => h hc.symm
  induction ts with
  | nil => simp [mergeTabletPB, lookupById, htx]
  | cons p rest ih =>
    by_cases hpt : p.1 = t
    · simp [mergeTabletPB, lookupById, hpt, htx]
    · by_cases hx : p.1 = x <;> simp [mergeTabletPB, lookupById, hpt, hx, h, ih]

theorem bool_or_absorb_left (a c d : Bool) (h : ((a || c) || d) = d) : (a || d) = d := by
  cases a <;> cases c <;> cases d <;> simp_all

theorem bool_or_absorb_right (a c d : Bool) (h : ((c || a) || d) = d) : (a || d) = d := by
  cases a <;> cases c <;> cases d <;> simp_all

theorem mergeTabletPB_absorbed (ts : TabletStates) (t : Nat) (hp b : Bool)
    (hl : lookupById ts t = some b) (hab : (hp || b) = b) :
    mergeTabletPB ts t hp = ts := by
  induction ts with
  | nil => simp [lookupById] at hl
  | cons p rest ih =>
    rcases p with ⟨k, v⟩
    by_cases h : k = t
    · have hvb : v = b := by simpa [lookupById, h] using hl
      have hval : (v || hp) = v := by rw [hvb, Bool.or_comm, hab]
      simp [mergeTabletPB, h, hval]
    · have hl2 : lookupById rest t = some b := by simpa [lookupById, h] using hl
      simp [mergeTabletPB, h, ih hl2]

theorem mergeTablets_grows (r : List (Nat × Bool)) :
    ∀ (ts : TabletStates) (x : Nat) (b : Bool), lookupById ts x = some b →
      ∃ b', lookupById (mergeTablets ts r) x = some b' ∧ (b || b') = b' := by
  induction r with
  | nil =>
    intro ts x b hl
    exact ⟨b, by simpa [mergeTablets] using hl, Bool.or_self b⟩
  | cons q rest ih =>
    intro ts x b hl
    rcases q with ⟨t, hp⟩
    by_cases hxt : x = t
    · subst hxt
      have h1 : lookupById (mergeTabletPB ts x hp) x = some (b || hp) := by
        rw [lookup_mergeTabletPB_self, hl]; rfl
      rcases ih (mergeTabletPB ts x hp) x (b || hp) h1 with ⟨b', hb', hab⟩
      exact ⟨b', by simpa [mergeTablets] using hb', bool_or_absorb_left b hp b' hab⟩
    · have h1 : lookupById (mergeTabletPB ts t hp) x = some b := by
        rw [lookup_mergeTabletPB_ne ts t x hp hxt]; exact hl
      rcases ih (mergeTabletPB ts t hp) x b h1 with ⟨b', hb', hab⟩
      exact ⟨b', by simpa [mergeTablets] using hb', hab⟩

theorem mergeTablets_mem (r : List (Nat × Bool)) (ts : TabletStates) (t : Nat) (hp : Bool)
    (hmem : (t, hp) ∈ r) :
    ∃ b, lookupById (mergeTablets ts r) t = some b ∧ (hp || b) = b := by
  induction r generalizing ts with
  | nil => cases hmem
  | cons q rest ih =>
    rcases q with ⟨u, v⟩
    rcases List.mem_cons.mp hmem with heq | hmem'
    · injection heq with h1 h2
      subst h1
      subst h2
      have h1 : lookupById (mergeTabletPB ts t hp) t
          = some ((lookupById ts t).getD false || hp) := lookup_mergeTabletPB_self ts t hp
      rcases mergeTablets_grows rest (mergeTabletPB ts t hp) t _ h1 with ⟨b', hb', hab⟩
      exact ⟨b', by simpa [mergeTablets] using hb',
        bool_or_absorb_right hp ((lookupById ts t).getD false) b' hab⟩
    · rcases ih (mergeTabletPB ts u v) hmem' with ⟨b, hb, hab⟩
      exact ⟨b, by simpa [mergeTablets] using hb, hab⟩

theorem mergeTablets_absorbed (r : List (Nat × Bool)) (ts : TabletStates)
    (h : ∀ p ∈ r, ∃ b, lookupById ts p.1 = some b ∧ (p.2 || b) = b) :
    mergeTablets ts r = ts := by
  induction r generalizing ts with
  | nil => rfl
  | cons q rest ih =>
    rcases q with ⟨t, hp⟩
    rcases h (t, hp) (List.mem_cons_self _ _) with ⟨b, hb, hab⟩
    have hone : mergeTabletPB ts t hp = ts := mergeTabletPB_absorbed ts t hp b hb hab
    show mergeTablets (mergeTabletPB ts t hp) rest = ts
    rw [hone]
    exact ih ts (fun p hp' => h p (List.mem_cons_of_mem _ hp'))

theorem mergeTablets_idem (ts : TabletStates) (r : List (Nat × Bool)) :
    mergeTablets (mergeTablets ts r) r = mergeTablets ts r := by
  apply mergeTablets_absorbed
  intro p hp
  exact mergeTablets_mem r ts p.1 p.2 hp

theorem lookup_applyLocalLimits_isSome (d m : List (Nat × Nat)) (k : Nat)
    (h : (lookupById m k).isSome) :
    (lookupById (applyLocalLimits m d) k).isSome := by
  induction d generalizing m with
  | nil => simpa [applyLocalLimits] using h
  | cons q rest ih =>
    rcases q with ⟨u, v⟩
    show (lookupById (applyLocalLimits (match lookupById m u with
      | some _ => m | none => m ++ [(u, v)]) rest) k).isSome
    cases hu : lookupById m u with
    | some w => exact ih m h
    | none =>
      apply ih
      rw [lookupById_append]
      cases hk : lookupById m k with
      | none => simp [hk] at h
      | some w => simp

theorem lookup_applyLocalLimits_mem (d m : List (Nat × Nat)) (k v : Nat)
    (hmem : (k, v) ∈ d) :
    (lookupById (applyLocalLimits m d) k).isSome := by
  induction d generalizing m with
  | nil => cases hmem
  | cons q rest ih =>
    rcases q with ⟨u, w⟩
    rcases List.mem_cons.mp hmem with heq | hmem'
    · have hk : u = k := congrArg Prod.fst heq.symm
      subst hk
      show (lookupById (applyLocalLimits (match lookupById m u with
        | some _ => m | none => m ++ [(u, w)]) rest) u).isSome
      cases hu : lookupById m u with
      | some x => exact lookup_applyLocalLimits_isSome rest m u (by simp [hu])
      | none =>
        apply lookup_applyLocalLimits_isSome
        rw [lookupById_append]
        simp [hu, lookupById]
    · show (lookupById (applyLocalLimits (match lookupById m u with
        | some _ => m | none => m ++ [(u, w)]) rest) k).isSome
      cases hu : lookupById m u with
      | some x => exact ih m hmem'
      | none => exact ih _ hmem'

theorem applyLocalLimits_absorbed (d m : List (Nat × Nat))
    (h : ∀ p ∈ d, (lookupById m p.1).isSome) :
    applyLocalLimits m d = m := by
  induction d with
  | nil => rfl
  | cons q rest ih =>
    rcases q with ⟨u, v⟩
    have hu := h (u, v) (List.mem_cons_self _ _)
    show applyLocalLimits (match lookupById m u with
      | some _ => m | none => m ++ [(u, v)]) rest = m
    cases hl : lookupById m u with
    | none => simp [hl] at hu
    | some w => exact ih (fun p hp => h p (List.mem_cons_of_mem _ hp))

theorem applyLocalLimits_idem (m d : List (Nat × Nat)) :
    applyLocalLimits (applyLocalLimits m d) d = applyLocalLimits m d := by
  apply applyLocalLimits_absorbed
  intro p hp
  exact lookup_applyLocalLimits_mem d m p.1 p.2 hp

/-! ### Lemmas about `CheckRunning` -/

theorem CheckRunning_isOk (s : ImplState) :
    (CheckRunning s).isOk = true ↔ s.state = .kRunning := by
  by_cases h : s.state = .kRunning
  · simp [CheckRunning, h, Status.isOk]
  · have hne : (CheckRunning s).isOk = false := by
      unfold CheckRunning
      rw [if_pos h]
      cases he : s.error <;> simp [Status.isOk]
    simp [hne, h]

theorem CheckRunning_running (s : ImplState) (h : s.state = .kRunning) :
    CheckRunning s = .ok := by
  simp [CheckRunning, h]

theorem CheckRunning_not_running (s : ImplState) (h : s.state ≠ .kRunning) :
    CheckRunning s = if s.error.isOk then .illegalState "Transaction already completed"
      else s.error := by
  simp [CheckRunning, h]

theorem Prepare_returned_iff_ready (ops : List Nat) (w : Nat) (s : ImplState) :
    (Prepare ops w s).returned = true ↔ s.ready = true := by
  cases hr : s.ready with
  | true => simp [Prepare, hr]
  | false => simp [Prepare, hr]

theorem Prepare_ready_tablets_mem (ops : List Nat) (w : Nat) (s : ImplState)
    (h : s.ready = true) :
    ∀ t ∈ ops, (lookupById (Prepare ops w s).state.tablets t).isSome := by
  intro t ht
  have hb : (!s.ready) = false := by rw [h]; rfl
  simp only [Prepare, hb, Bool.false_eq_true, if_false]
  exact prepareTablets_mem ops s.tablets false t ht

/-! ### Claim theorems: the `Prepare` / `Flushed` / `Commit` contracts -/

/-- C4: `Prepare` returns false exactly when the coordinator is not ready —
then the waiter is appended to the waiters list, status-shard resolution is
triggered and the out-metadata is left untouched.  When it returns true,
every shard id appearing in `ops` has a `ParticipantTable` entry afterwards,
and the out-metadata holds the full transaction metadata if and only if some
op targets a shard that was absent from the table or had
`has_parameters = false`; otherwise only the transaction id is filled. -/
theorem prepare_contract (s : ImplState) (ops : List Nat) (w : Nat) :
    ((Prepare ops w s).returned = true ↔ s.ready = true)
    ∧ (s.ready = false →
        (Prepare ops w s).state.waiters = s.waiters ++ [.ext w]
        ∧ (Prepare ops w s).state.requested_status_tablet = true
        ∧ (Prepare ops w s).metadata = none)
    ∧ (s.ready = true →
        (∀ t ∈ ops, (lookupById (Prepare ops w s).state.tablets t).isSome)
        ∧ (Prepare ops w s).metadata
            = some (if ops.any (fun t => !((lookupById s.tablets t).getD false))
                    then .full else .idOnly)) := by
  refine ⟨Prepare_returned_iff_ready ops w s, ?_, ?_⟩
  · intro h
    have hb : (!s.ready) = true := by rw [h]; rfl
    refine ⟨?_, ?_, ?_⟩ <;>
      simp only [Prepare, hb, if_true, RequestStatusTablet] <;> split <;> simp_all
  · intro h
    have hb : (!s.ready) = false := by rw [h]; rfl
    refine ⟨Prepare_ready_tablets_mem ops w s h, ?_⟩
    simp only [Prepare, hb, Bool.false_eq_true, if_false]
    rw [prepareTablets_snd]
    simp

/-- Witness for `prepare_contract` at a concrete ready state: shard 1 is
already informed, shard 2 is new, so the metadata out-parameter gets the
full metadata. -/
theorem prepare_contract_witness :
    (Prepare [1, 2] 7
        { initialImpl false with ready := true, tablets := [(1, true)] }).metadata
      = some .full := by
  have h := (prepare_contract
    { initialImpl false with ready := true, tablets := [(1, true)] } [1, 2] 7).2.2 rfl
  have h2 := h.2
  simp only [lookupById, initialImpl] at h2
  simpa using h2

/-- C5: after `Flushed(ops, Ok)`, every shard with at least one succeeded op
in the batch has `has_parameters = true` in the `ParticipantTable`; the
entry of any shard with no succeeded op is unchanged.  (The precondition
says every succeeded op's shard already has an entry, which is exactly the
`CHECK` the code performs.) -/
theorem flushed_ok_marks_participants (s : ImplState) (ops : List InFlightOp)
    (hpre : ∀ op ∈ ops, op.succeeded = true → (lookupById s.tablets op.tablet).isSome) :
    (∀ t, (∃ op ∈ ops, op.tablet = t ∧ op.succeeded = true) →
        lookupById (Flushed ops .ok s).1.tablets t = some true)
    ∧ (∀ t, (∀ op ∈ ops, ¬(op.tablet = t ∧ op.succeeded = true)) →
        lookupById (Flushed ops .ok s).1.tablets t = lookupById s.tablets t) := by
  have hunf : (Flushed ops .ok s).1.tablets = (flushTablets s.tablets ops).1 := by
    simp [Flushed, Status.isOk]
  constructor
  · rintro t ⟨op, hop, hot, hos⟩
    rw [hunf]
    exact flushTablets_sets ops s.tablets t ⟨op, hop, hot, hos⟩ (hot ▸ hpre op hop hos)
  · intro t hno
    rw [hunf]
    exact flushTablets_unchanged ops s.tablets t hno

set_option linter.unnecessarySimpa false in
/-- Witness for `flushed_ok_marks_participants`: a successful batch on
shard 1 flips its `has_parameters` bit; shard 2 is untouched. -/
theorem flushed_ok_marks_participants_witness :
    lookupById (Flushed [⟨1, true⟩] .ok
        { initialImpl false with
          ready := true
          tablets := [(1, false), (2, false)] }).1.tablets 1 = some true
    ∧ lookupById (Flushed [⟨1, true⟩] .ok
        { initialImpl false with
          ready := true
          tablets := [(1, false), (2, false)] }).1.tablets 2 = some false := by
  have h := flushed_ok_marks_participants
    { initialImpl false with ready := true, tablets := [(1, false), (2, false)] }
    [⟨1, true⟩] (by decide)
  refine ⟨h.1 1 ⟨⟨1, true⟩, by simp, rfl, rfl⟩, ?_⟩
  have h2 := h.2 2 (by decide)
  simpa [lookupById, initialImpl] using h2

set_option linter.unusedVariables false in
/-- C6: `Flushed` with a `TryAgain` status on a running transaction (whose
error slot is still clear) latches exactly that error and aborts the
transaction, and a subsequent `Commit` delivers exactly the latched
`TryAgain` error — not a generic `IllegalState` — to its callback; `Flushed`
with any other non-Ok status leaves both the state and the error unchanged. -/
theorem flushed_tryAgain_latches (s : ImplState) (ops ops2 : List InFlightOp)
    (m : String) (st : Status)
    (hrun : s.state = .kRunning) (herr : s.error = .ok)
    (hnok : st.isOk = false) (hnta : st.isTryAgain = false) :
    ((Flushed ops (.tryAgain m) s).1.error = .tryAgain m
     ∧ (Flushed ops (.tryAgain m) s).1.state = .kAborted
     ∧ (Commit (Flushed ops (.tryAgain m) s).1).2 = [.commitCb (.tryAgain m)])
    ∧ ((Flushed ops2 st s).1.state = s.state ∧ (Flushed ops2 st s).1.error = s.error) := by
  have h1 : Flushed ops (.tryAgain m) s = (SetError (.tryAgain m) s, []) := by
    simp [Flushed, Status.isOk, Status.isTryAgain]
  have h2 : SetError (.tryAgain m) s = { s with error := .tryAgain m, state := .kAborted } := by
    simp [SetError, herr, Status.isOk]
  have h3 : (Flushed ops (.tryAgain m) s).1
      = { s with error := .tryAgain m, state := .kAborted } := by rw [h1, h2]
  refine ⟨⟨by rw [h3], by rw [h3], ?_⟩, ?_⟩
  · rw [h3]
    have hcr : CheckRunning { s with error := .tryAgain m, state := .kAborted }
        = .tryAgain m := by
      simp [CheckRunning, Status.isOk]
    simp [Commit, hcr, Status.isOk]
  · have h4 : Flushed ops2 st s = (s, []) := by
      simp [Flushed, hnok, hnta]
    rw [h4]
    exact ⟨rfl, rfl⟩

/-- Witness for `flushed_tryAgain_latches` at a concrete running state:
the latched conflict error is what the next `Commit` callback receives. -/
theorem flushed_tryAgain_latches_witness :
    (Commit (Flushed [] (.tryAgain "conflict")
        { initialImpl false with ready := true }).1).2
      = [.commitCb (.tryAgain "conflict")] :=
  ((flushed_tryAgain_latches { initialImpl false with ready := true }
    [] [] "conflict" (.networkError "io") rfl rfl rfl rfl).1).2.2

/-- C7: `Commit` on a ready, running, non-child transaction with no restart
required and an empty `ParticipantTable` sends an Abort RPC — not a
COMMITTED update — to the status shard and invokes the commit callback
with `Ok`. -/
theorem commit_empty_participants_aborts (s : ImplState)
    (hready : s.ready = true) (hrun : s.state = .kRunning) (hch : s.child = false)
    (hrr : s.restart_required = false) (hemp : s.tablets = []) :
    (Commit s).2 = [.rpcAbort, .commitCb .ok]
    ∧ (Commit s).1.state = .kCommitted := by
  have hcr : CheckRunning s = .ok := CheckRunning_running s hrun
  constructor <;>
    simp [Commit, hcr, hch, hrr, hready, DoCommit, DoAbort, hemp, Status.isOk]

/-- Witness for `commit_empty_participants_aborts` at the ready initial
state (no writes ever prepared). -/
theorem commit_empty_participants_aborts_witness :
    (Commit { initialImpl false with ready := true }).2 = [.rpcAbort, .commitCb .ok] :=
  (commit_empty_participants_aborts { initialImpl false with ready := true }
    rfl rfl rfl rfl rfl).1

/-- C8: a heartbeat completion that failed while the transaction is running
(error slot still clear): an `Expired` failure latches the error and aborts,
and no further heartbeat is sent; any other failure re-sends the same
heartbeat status immediately, leaving the state entirely unchanged. -/
theorem heartbeatDone_failure_handling (s : ImplState) (st : Status)
    (ts : TransactionStatus)
    (hrun : s.state = .kRunning) (herr : s.error = .ok) (hnok : st.isOk = false) :
    (st.isExpired = true →
        (HeartbeatDone st ts s).1.error = st
        ∧ (HeartbeatDone st ts s).1.state = .kAborted
        ∧ (HeartbeatDone st ts s).2 = [])
    ∧ (st.isExpired = false →
        (HeartbeatDone st ts s).1 = s
        ∧ (HeartbeatDone st ts s).2 = [.rpcHeartbeat ts]) := by
  constructor
  · intro hexp
    have h1 : HeartbeatDone st ts s = (SetError st s, []) := by
      simp [HeartbeatDone, hnok, hexp]
    have h2 : SetError st s = { s with error := st, state := .kAborted } := by
      simp [SetError, herr, Status.isOk]
    rw [h1, h2]
    exact ⟨rfl, rfl, rfl⟩
  · intro hexp
    have h1 : HeartbeatDone st ts s = SendHeartbeat ts s := by
      simp [HeartbeatDone, hnok, hexp]
    rw [h1]
    simp [SendHeartbeat, hrun]

/-- Witness for `heartbeatDone_failure_handling`: an expired heartbeat on
the running initial state aborts with the expired error and sends nothing. -/
theorem heartbeatDone_failure_handling_witness :
    (HeartbeatDone (.expired "tx expired") .PENDING (initialImpl false)).1.state
        = .kAborted
    ∧ (HeartbeatDone (.expired "tx expired") .PENDING (initialImpl false)).2 = [] := by
  have h := (heartbeatDone_failure_handling (initialImpl false) (.expired "tx expired")
    .PENDING rfl rfl rfl).1 rfl
  exact ⟨h.2.1, h.2.2⟩

/-- C9: applying the same `ChildTransactionResult` twice through
`ApplyChildResult` yields the same `ParticipantTable` and read point as
applying it once: the per-shard `has_parameters` or-merge, the
`local_limits` union and the `restart_required` or are all idempotent. -/
theorem ApplyChildResult_ok_shape (s : ImplState) (r : ChildResult)
    (hrun : s.state = .kRunning) (hch : s.child = false) :
    (ApplyChildResult r s).2
      = { s with
          tablets := mergeTablets s.tablets r.tablets
          local_limits := applyLocalLimits s.local_limits r.local_limits
          restart_required := s.restart_required || r.restart_required } := by
  have hcr : CheckRunning s = .ok := CheckRunning_running s hrun
  simp [ApplyChildResult, hcr, Status.isOk, hch]

theorem applyChildResult_idempotent (s : ImplState) (r : ChildResult)
    (hrun : s.state = .kRunning) (hch : s.child = false) :
    (ApplyChildResult r (ApplyChildResult r s).2).2.tablets
        = (ApplyChildResult r s).2.tablets
    ∧ (ApplyChildResult r (ApplyChildResult r s).2).2.local_limits
        = (ApplyChildResult r s).2.local_limits
    ∧ (ApplyChildResult r (ApplyChildResult r s).2).2.restart_required
        = (ApplyChildResult r s).2.restart_required := by
  have hs1 := ApplyChildResult_ok_shape s r hrun hch
  have hs2 := ApplyChildResult_ok_shape (ApplyChildResult r s).2 r
    (by rw [hs1]; exact hrun) (by rw [hs1]; exact hch)
  rw [hs2, hs1]
  refine ⟨?_, ?_, ?_⟩ <;>
    simp [mergeTablets_idem, applyLocalLimits_idem, Bool.or_assoc, Bool.or_self]

/-- Witness for `applyChildResult_idempotent` at a concrete parent and a
concrete child result merging one informed shard and a local limit. -/
theorem applyChildResult_idempotent_witness :
    (ApplyChildResult ⟨[(3, true)], [(3, 10)], true⟩
        (ApplyChildResult ⟨[(3, true)], [(3, 10)], true⟩
          { initialImpl false with ready := true }).2).2.tablets
      = (ApplyChildResult ⟨[(3, true)], [(3, 10)], true⟩
          { initialImpl false with ready := true }).2.tablets :=
  (applyChildResult_idempotent { initialImpl false with ready := true }
    ⟨[(3, true)], [(3, 10)], true⟩ rfl rfl).1

/-! ### Field-preservation lemmas for each operation -/

theorem SetError_cases (st : Status) (s : ImplState) :
    SetError st s = s ∨ SetError st s = { s with error := st, state := .kAborted } := by
  unfold SetError
  split
  · exact Or.inr rfl
  · exact Or.inl rfl

theorem SetError_tablets (st : Status) (s : ImplState) :
    (SetError st s).tablets = s.tablets := by
  rcases SetError_cases st s with h | h <;> rw [h]

theorem SetError_waiters (st : Status) (s : ImplState) :
    (SetError st s).waiters = s.waiters := by
  rcases SetError_cases st s with h | h <;> rw [h]

theorem SendHeartbeat_fst (hs : TransactionStatus) (s : ImplState) :
    (SendHeartbeat hs s).1 = s := by
  unfold SendHeartbeat
  split <;> rfl

theorem RequestStatusTablet_tablets (s : ImplState) :
    (RequestStatusTablet s).1.tablets = s.tablets := by
  unfold RequestStatusTablet
  split <;> rfl

theorem RequestStatusTablet_waiters (s : ImplState) :
    (RequestStatusTablet s).1.waiters = s.waiters := by
  unfold RequestStatusTablet
  split <;> rfl

theorem RequestStatusTablet_state (s : ImplState) :
    (RequestStatusTablet s).1.state = s.state := by
  unfold RequestStatusTablet
  split <;> rfl

theorem RequestStatusTablet_requested (s : ImplState) :
    (RequestStatusTablet s).1.requested_status_tablet = true := by
  unfold RequestStatusTablet
  split
  · assumption
  · rfl

theorem Prepare_tablets_cases (ops : List Nat) (w : Nat) (s : ImplState) :
    (Prepare ops w s).state.tablets = s.tablets
    ∨ (Prepare ops w s).state.tablets = (prepareTablets s.tablets false ops).1 := by
  simp only [Prepare]
  split
  · exact Or.inl (RequestStatusTablet_tablets _)
  · exact Or.inr rfl

theorem Prepare_state_state (ops : List Nat) (w : Nat) (s : ImplState) :
    (Prepare ops w s).state.state = s.state := by
  simp only [Prepare]
  split
  · exact RequestStatusTablet_state _
  · rfl

theorem Flushed_tablets_cases (ops : List InFlightOp) (st : Status) (s : ImplState) :
    (Flushed ops st s).1.tablets = s.tablets
    ∨ (Flushed ops st s).1.tablets = (flushTablets s.tablets ops).1 := by
  simp only [Flushed]
  split
  · exact Or.inr rfl
  · split
    · exact Or.inl (SetError_tablets _ _)
    · exact Or.inl rfl

theorem Commit_tablets (s : ImplState) : (Commit s).1.tablets = s.tablets := by
  simp only [Commit]
  split
  · rfl
  · split
    · rfl
    · split
      · rfl
      · split
        · exact RequestStatusTablet_tablets _
        · rw [DoCommit_fst]

theorem Abort_tablets (s : ImplState) : (Abort s).1.tablets = s.tablets := by
  simp only [Abort]
  split
  · rfl
  · split
    · rfl
    · split
      · exact RequestStatusTablet_tablets _
      · rw [DoAbort_fst]

theorem PrepareChild_tablets (cb : Nat) (s : ImplState) :
    (PrepareChild cb s).1.tablets = s.tablets := by
  simp only [PrepareChild]
  split
  · rfl
  · split
    · rfl
    · split
      · exact RequestStatusTablet_tablets _
      · rw [DoPrepareChild_fst]

theorem FinishChild_tablets (s : ImplState) : (FinishChild s).2.tablets = s.tablets := by
  simp only [FinishChild]
  split
  · rfl
  · split <;> rfl

theorem SetupRestart_tablets (s : ImplState) : (SetupRestart s).1.tablets = s.tablets := by
  simp only [SetupRestart]
  split
  · rfl
  · rw [DoAbort_fst]

theorem StatusTabletPicked_tablets (t : Except Status Nat) (s : ImplState) :
    (StatusTabletPicked t s).1.tablets = s.tablets := by
  cases t with
  | ok v => rfl
  | error e => exact SetError_tablets _ _

theorem LookupTabletDone_tablets (st : Status) (holder : Option Nat) (s : ImplState) :
    (LookupTabletDone st holder s).1.tablets = s.tablets := by
  simp only [LookupTabletDone]
  rw [SendHeartbeat_fst]

theorem HeartbeatDone_tablets (st : Status) (ts : TransactionStatus) (s : ImplState) :
    (HeartbeatDone st ts s).1.tablets = s.tablets := by
  simp only [HeartbeatDone]
  split
  · split
    · rw [fireWaiters_fst]
    · rfl
  · split
    · exact SetError_tablets _ _
    · rw [SendHeartbeat_fst]

theorem ApplyChildResult_tablets_cases (r : ChildResult) (s : ImplState) :
    (ApplyChildResult r s).2.tablets = s.tablets
    ∨ (ApplyChildResult r s).2.tablets = mergeTablets s.tablets r.tablets := by
  simp only [ApplyChildResult]
  split
  · exact Or.inl rfl
  · split
    · exact Or.inl rfl
    · exact Or.inr rfl

theorem mergeTablets_isSome_mono (r : List (Nat × Bool)) (ts : TabletStates) (x : Nat)
    (h : (lookupById ts x).isSome) :
    (lookupById (mergeTablets ts r) x).isSome := by
  cases hl : lookupById ts x with
  | none => simp [hl] at h
  | some b =>
    rcases mergeTablets_grows r ts x b hl with ⟨b', hb', _⟩
    simp [hb']

/-- The participant table only gains entries: no action removes a key. -/
theorem step_tablets_isSome_mono (s : ImplState) (a : Action) (x : Nat)
    (h : (lookupById s.tablets x).isSome) :
    (lookupById (step s a).1.tablets x).isSome := by
  cases a with
  | prepare ops w =>
    show (lookupById (Prepare ops w s).state.tablets x).isSome
    rcases Prepare_tablets_cases ops w s with ht | ht
    · rw [ht]; exact h
    · rw [ht]; exact prepareTablets_isSome_mono ops s.tablets false x h
  | flushed ops st =>
    show (lookupById (Flushed ops st s).1.tablets x).isSome
    rcases Flushed_tablets_cases ops st s with ht | ht
    · rw [ht]; exact h
    · rw [ht, flushTablets_isSome]; exact h
  | commit =>
    show (lookupById (Commit s).1.tablets x).isSome
    rw [Commit_tablets]; exact h
  | abort =>
    show (lookupById (Abort s).1.tablets x).isSome
    rw [Abort_tablets]; exact h
  | prepareChild cb =>
    show (lookupById (PrepareChild cb s).1.tablets x).isSome
    rw [PrepareChild_tablets]; exact h
  | finishChild =>
    show (lookupById (FinishChild s).2.tablets x).isSome
    rw [FinishChild_tablets]; exact h
  | applyChildResult r =>
    show (lookupById (ApplyChildResult r s).2.tablets x).isSome
    rcases ApplyChildResult_tablets_cases r s with ht | ht
    · rw [ht]; exact h
    · rw [ht]; exact mergeTablets_isSome_mono r.tablets s.tablets x h
  | setupRestart =>
    show (lookupById (SetupRestart s).1.tablets x).isSome
    rw [SetupRestart_tablets]; exact h
  | statusTabletPicked t =>
    show (lookupById (StatusTabletPicked t s).1.tablets x).isSome
    rw [StatusTabletPicked_tablets]; exact h
  | lookupTabletDone st holder =>
    show (lookupById (LookupTabletDone st holder s).1.tablets x).isSome
    rw [LookupTabletDone_tablets]; exact h
  | heartbeatDone st ts =>
    show (lookupById (HeartbeatDone st ts s).1.tablets x).isSome
    rw [HeartbeatDone_tablets]; exact h

theorem runImpl_tablets_isSome_mono (acts : List Action) (s : ImplState) (x : Nat)
    (h : (lookupById s.tablets x).isSome) :
    (lookupById (runImpl s acts).1.tablets x).isSome := by
  induction acts generalizing s with
  | nil => simpa [runImpl] using h
  | cons a rest ih =>
    show (lookupById (runImpl (step s a).1 rest).1.tablets x).isSome
    exact ih _ (step_tablets_isSome_mono s a x h)

/-! ### State-transition shape of every action -/

theorem SetError_state_cases (st : Status) (s : ImplState) :
    (SetError st s).state = s.state
    ∨ (s.state = .kRunning ∧ (SetError st s).state = .kAborted)
    ∨ (s.state = .kCommitted ∧ (SetError st s).state = .kAborted) := by
  rcases SetError_cases st s with h | h
  · exact Or.inl (by rw [h])
  · cases hs : s.state with
    | kRunning => exact Or.inr (Or.inl ⟨rfl, by rw [h]⟩)
    | kAborted => exact Or.inl (by rw [h])
    | kCommitted => exact Or.inr (Or.inr ⟨rfl, by rw [h]⟩)

theorem SetError_state_cases3 (st : Status) (s : ImplState) :
    (SetError st s).state = s.state
    ∨ (s.state = .kRunning
        ∧ ((SetError st s).state = .kCommitted ∨ (SetError st s).state = .kAborted))
    ∨ (s.state = .kCommitted ∧ (SetError st s).state = .kAborted) := by
  rcases SetError_state_cases st s with h | ⟨h1, h2⟩ | hc
  · exact Or.inl h
  · exact Or.inr (Or.inl ⟨h1, Or.inr h2⟩)
  · exact Or.inr (Or.inr hc)

theorem not_isOk_elim (b : Bool) (h : ¬((!b) = true)) : b = true := by
  cases b
  · simp at h
  · rfl

/-- Every single step either leaves the state unchanged, moves a running
transaction to Committed or Aborted, or moves a committed transaction to
Aborted (that last transition comes from `SetError`, which guards on the
first-error latch rather than on the state). -/
theorem step_state_cases (s : ImplState) (a : Action) :
    (step s a).1.state = s.state
    ∨ (s.state = .kRunning
        ∧ ((step s a).1.state = .kCommitted ∨ (step s a).1.state = .kAborted))
    ∨ (s.state = .kCommitted ∧ (step s a).1.state = .kAborted) := by
  cases a with
  | prepare ops w => exact Or.inl (Prepare_state_state ops w s)
  | flushed ops st =>
    have hstep : (step s (.flushed ops st)).1 = (Flushed ops st s).1 := rfl
    rw [hstep]
    simp only [Flushed]
    split
    · exact Or.inl rfl
    · split
      · exact SetError_state_cases3 st s
      · exact Or.inl rfl
  | commit =>
    have hstep : (step s Action.commit).1 = (Commit s).1 := rfl
    rw [hstep]
    simp only [Commit]
    split
    · exact Or.inl rfl
    · rename_i hok
      have hrun : s.state = .kRunning :=
        (CheckRunning_isOk s).mp (not_isOk_elim _ hok)
      split
      · exact Or.inl rfl
      · split
        · exact Or.inl rfl
        · split
          · exact Or.inr (Or.inl ⟨hrun, Or.inl (RequestStatusTablet_state _)⟩)
          · exact Or.inr (Or.inl ⟨hrun, Or.inl (by rw [DoCommit_fst])⟩)
  | abort =>
    have hstep : (step s Action.abort).1 = (Abort s).1 := rfl
    rw [hstep]
    simp only [Abort]
    split
    · exact Or.inl rfl
    · rename_i hne
      have hrun : s.state = .kRunning := not_not.mp hne
      split
      · exact Or.inl rfl
      · split
        · exact Or.inr (Or.inl ⟨hrun, Or.inr (RequestStatusTablet_state _)⟩)
        · exact Or.inr (Or.inl ⟨hrun, Or.inr (by rw [DoAbort_fst])⟩)
  | prepareChild cb =>
    have hstep : (step s (.prepareChild cb)).1 = (PrepareChild cb s).1 := rfl
    rw [hstep]
    refine Or.inl ?_
    simp only [PrepareChild]
    split
    · rfl
    · split
      · rfl
      · split
        · exact RequestStatusTablet_state _
        · rw [DoPrepareChild_fst]
  | finishChild =>
    have hstep : (step s Action.finishChild).1 = (FinishChild s).2 := rfl
    rw [hstep]
    simp only [FinishChild]
    split
    · exact Or.inl rfl
    · rename_i hok
      have hrun : s.state = .kRunning :=
        (CheckRunning_isOk s).mp (not_isOk_elim _ hok)
      split
      · exact Or.inl rfl
      · exact Or.inr (Or.inl ⟨hrun, Or.inl rfl⟩)
  | applyChildResult r =>
    refine Or.inl ?_
    show (ApplyChildResult r s).2.state = s.state
    simp only [ApplyChildResult]
    split
    · rfl
    · split <;> rfl
  | setupRestart =>
    have hstep : (step s Action.setupRestart).1 = (SetupRestart s).1 := rfl
    rw [hstep]
    simp only [SetupRestart]
    split
    · exact Or.inl rfl
    · rename_i hne
      have hrun : s.state = .kRunning := not_not.mp hne
      exact Or.inr (Or.inl ⟨hrun, Or.inr (by rw [DoAbort_fst])⟩)
  | statusTabletPicked t =>
    cases t with
    | ok v => exact Or.inl rfl
    | error e =>
      have hstep : (step s (.statusTabletPicked (.error e))).1 = SetError e s := rfl
      rw [hstep]
      exact SetError_state_cases3 e s
  | lookupTabletDone st holder =>
    refine Or.inl ?_
    show (LookupTabletDone st holder s).1.state = s.state
    simp only [LookupTabletDone]
    rw [SendHeartbeat_fst]
  | heartbeatDone st ts =>
    have hstep : (step s (.heartbeatDone st ts)).1 = (HeartbeatDone st ts s).1 := rfl
    rw [hstep]
    simp only [HeartbeatDone]
    split
    · split
      · exact Or.inl (by rw [fireWaiters_fst])
      · exact Or.inl rfl
    · split
      · exact SetError_state_cases3 st s
      · exact Or.inl (by rw [SendHeartbeat_fst])

/-! ### Claim theorems on the transaction state machine -/

/-- C2 (amended): the transaction state never returns to Running and never
moves from Aborted to Committed; every change is `Running → Committed`,
`Running → Aborted`, or `Committed → Aborted` — that last transition
happens when `SetError` (a `TryAgain` flush or an `Expired` heartbeat
completion) runs after a successful `Commit`, because `SetError` guards on
the first-error latch and not on the state. -/
theorem state_monotone_modulo_late_error (s : ImplState) (a : Action)
    (h : (step s a).1.state ≠ s.state) :
    s.state = .kRunning ∨ (s.state = .kCommitted ∧ (step s a).1.state = .kAborted) := by
  rcases step_state_cases s a with he | ⟨hr, _⟩ | hc
  · exact absurd he h
  · exact Or.inl hr
  · exact Or.inr hc

/-- Witness for `state_monotone_modulo_late_error`: `Abort` on the fresh
coordinator changes the state, and the source state is Running. -/
theorem state_monotone_modulo_late_error_witness :
    (step (initialImpl false) Action.abort).1.state ≠ (initialImpl false).state
    ∧ ((initialImpl false).state = .kRunning
        ∨ ((initialImpl false).state = .kCommitted
            ∧ (step (initialImpl false) Action.abort).1.state = .kAborted)) :=
  ⟨by decide, state_monotone_modulo_late_error (initialImpl false) Action.abort (by decide)⟩

/-- C2 counterexample: the state sequence is not a prefix of
`Running → (Committed | Aborted)` — after a commit, a late `Flushed` with a
`TryAgain` status moves the coordinator from Committed to Aborted, so the
state does change again after leaving Running via Committed. -/
theorem state_leaves_committed_counterexample :
    (runImpl (initialImpl false)
        [.lookupTabletDone .ok (some 5), .heartbeatDone .ok .CREATED, .commit]).1.state
      = .kCommitted
    ∧ (runImpl (initialImpl false)
        [.lookupTabletDone .ok (some 5), .heartbeatDone .ok .CREATED, .commit,
          .flushed [] (.tryAgain "conflict")]).1.state
      = .kAborted := by decide

/-- C1 (amended): while `ready = false` each of Prepare, Commit, Abort and
PrepareChild appends exactly one continuation to the end of the waiters
list; when `ready` flips to true on the successful CREATED heartbeat the
waiters fire exactly once each, in insertion order, with `Ok`, and the list
is emptied.  When status-shard resolution fails, however, `SetError` only
records the error and aborts: the enqueued waiters are *not* invoked — no
waiter ever receives the resolution error. -/
theorem waiters_fifo_contract (s : ImplState) (ops : List Nat) (w cb : Nat) (e : Status)
    (hnr : s.ready = false) (hrun : s.state = .kRunning)
    (hch : s.child = false) (hrr : s.restart_required = false) :
    (step s (.prepare ops w)).1.waiters = s.waiters ++ [.ext w]
    ∧ (step s .commit).1.waiters = s.waiters ++ [.commitW]
    ∧ (step s .abort).1.waiters = s.waiters ++ [.abortW]
    ∧ (step s (.prepareChild cb)).1.waiters = s.waiters ++ [.prepChild cb]
    ∧ firedWaiters (step s (.heartbeatDone .ok .CREATED)).2
        = s.waiters.map (fun x => (x, Status.ok))
    ∧ (step s (.heartbeatDone .ok .CREATED)).1.waiters = []
    ∧ (step s (.statusTabletPicked (.error e))).1.waiters = s.waiters
    ∧ firedWaiters (step s (.statusTabletPicked (.error e))).2 = [] := by
  have hcr : CheckRunning s = .ok := CheckRunning_running s hrun
  refine ⟨?_, ?_, ?_, ?_, ?_, ?_, ?_, ?_⟩
  · show (Prepare ops w s).state.waiters = s.waiters ++ [.ext w]
    simp [Prepare, hnr, RequestStatusTablet_waiters]
  · show (Commit s).1.waiters = s.waiters ++ [.commitW]
    simp [Commit, hcr, Status.isOk, hch, hrr, hnr, RequestStatusTablet_waiters]
  · show (Abort s).1.waiters = s.waiters ++ [.abortW]
    simp [Abort, hrun, hch, hnr, RequestStatusTablet_waiters]
  · show (PrepareChild cb s).1.waiters = s.waiters ++ [.prepChild cb]
    simp [PrepareChild, hcr, Status.isOk, hrr, hnr, RequestStatusTablet_waiters]
  · show firedWaiters (HeartbeatDone .ok .CREATED s).2
        = s.waiters.map (fun x => (x, Status.ok))
    simp only [HeartbeatDone, Status.isOk, if_true]
    rw [firedWaiters_append, firedWaiters_fireWaiters]
    simp [firedWaiters]
  · show (HeartbeatDone .ok .CREATED s).1.waiters = []
    simp only [HeartbeatDone, Status.isOk, if_true]
    rw [fireWaiters_fst]
  · show (SetError e s).waiters = s.waiters
    exact SetError_waiters e s
  · show firedWaiters [] = []
    rfl

/-- Witness for `waiters_fifo_contract`: one queued waiter fires once with
`Ok` when the CREATED heartbeat succeeds. -/
theorem waiters_fifo_contract_witness :
    firedWaiters (step { initialImpl false with waiters := [.ext 1] }
        (.heartbeatDone .ok .CREATED)).2 = [(.ext 1, .ok)] := by
  have h := (waiters_fifo_contract { initialImpl false with waiters := [.ext 1] }
    [] 0 0 (.networkError "e") rfl rfl rfl rfl).2.2.2.2.1
  simpa using h

/-- C1 counterexample: a waiter enqueued by `Prepare` while not ready is
never fired when status-shard resolution fails — the pick failure latches
the error and aborts, but the waiter stays in the list and no waiter
invocation appears among the observable events, contradicting "each
enqueued waiter fires exactly once ... with the resolution error when
status-shard resolution fails". -/
theorem waiters_not_fired_on_error_counterexample :
    (runImpl (initialImpl false)
        [.prepare [] 7, .statusTabletPicked (.error (.networkError "pick failed"))]).1.waiters
      = [.ext 7]
    ∧ (runImpl (initialImpl false)
        [.prepare [] 7, .statusTabletPicked (.error (.networkError "pick failed"))]).1.state
      = .kAborted
    ∧ (runImpl (initialImpl false)
        [.prepare [] 7, .statusTabletPicked (.error (.networkError "pick failed"))]).1.error
      = .networkError "pick failed"
    ∧ firedWaiters (runImpl (initialImpl false)
        [.prepare [] 7, .statusTabletPicked (.error (.networkError "pick failed"))]).2
      = [] := by decide

/-- C3 (amended): when the status-shard *pick* fails, `SetError` runs with
that failure: the first error is recorded and the state moves to Aborted,
and a later error is dropped (the state is left untouched when an error is
already latched).  A failure of the routing-descriptor *lookup*, however,
is ignored: `LookupTabletDone` never examines its status argument, so the
error and the state are unchanged no matter what status the lookup
reports. -/
theorem resolution_failure_contract (s : ImplState) (e st : Status) (holder : Option Nat) :
    (s.error.isOk = true →
        (step s (.statusTabletPicked (.error e))).1.error = e
        ∧ (step s (.statusTabletPicked (.error e))).1.state = .kAborted)
    ∧ (s.error.isOk = false →
        (step s (.statusTabletPicked (.error e))).1 = s)
    ∧ (step s (.lookupTabletDone st holder)).1.error = s.error
    ∧ (step s (.lookupTabletDone st holder)).1.state = s.state := by
  refine ⟨?_, ?_, ?_, ?_⟩
  · intro he
    show (SetError e s).error = e ∧ (SetError e s).state = .kAborted
    simp [SetError, he]
  · intro he
    show SetError e s = s
    simp [SetError, he]
  · show (LookupTabletDone st holder s).1.error = s.error
    simp only [LookupTabletDone]
    rw [SendHeartbeat_fst]
  · show (LookupTabletDone st holder s).1.state = s.state
    simp only [LookupTabletDone]
    rw [SendHeartbeat_fst]

/-- Witness for `resolution_failure_contract`: a failed pick on the fresh
coordinator aborts it with that error. -/
theorem resolution_failure_contract_witness :
    (step (initialImpl false)
        (.statusTabletPicked (.error (.networkError "pick failed")))).1.state
      = .kAborted :=
  ((resolution_failure_contract (initialImpl false) (.networkError "pick failed")
    .ok none).1 rfl).2

/-- C3 counterexample: when the routing-descriptor lookup reports a
failure, `SetError` is *not* invoked — the transaction stays Running with
no error recorded, and the coordinator even proceeds to send the CREATED
heartbeat — contradicting "whenever status-shard resolution fails at any
of its steps ... the transaction state transitions to Aborted". -/
theorem lookup_failure_ignored_counterexample :
    (step (initialImpl false)
        (.lookupTabletDone (.networkError "lookup failed") none)).1.state = .kRunning
    ∧ (step (initialImpl false)
        (.lookupTabletDone (.networkError "lookup failed") none)).1.error = .ok
    ∧ (step (initialImpl false)
        (.lookupTabletDone (.networkError "lookup failed") none)).2
      = [.rpcHeartbeat .CREATED] := by decide

/-- C10: under the precondition that every op of the batch was admitted by
a `Prepare` call that returned true (which inserted its destination shard
into the `ParticipantTable`), and given that no operation ever removes
table entries, the `CHECK(it != tablets_.end())` in `Flushed` can never
fire — whatever other actions ran in between. -/
theorem flushed_check_unreachable (s0 : ImplState) (ops : List Nat) (w : Nat)
    (acts : List Action) (fops : List InFlightOp)
    (hret : (Prepare ops w s0).returned = true)
    (hsub : ∀ op ∈ fops, op.tablet ∈ ops) :
    ((Flushed fops .ok (runImpl (Prepare ops w s0).state acts).1).2.all
        (fun ev => !ev.isCheckFailed)) = true := by
  have hready : s0.ready = true := (Prepare_returned_iff_ready ops w s0).mp hret
  have h1 : ∀ t ∈ ops, (lookupById (Prepare ops w s0).state.tablets t).isSome :=
    Prepare_ready_tablets_mem ops w s0 hready
  have h2 : ∀ t ∈ ops,
      (lookupById (runImpl (Prepare ops w s0).state acts).1.tablets t).isSome :=
    fun t ht => runImpl_tablets_isSome_mono acts _ t (h1 t ht)
  have h3 : (flushTablets (runImpl (Prepare ops w s0).state acts).1.tablets fops).2 = [] :=
    flushTablets_no_check fops _ (fun op hop _ => h2 op.tablet (hsub op hop))
  have h4 : (Flushed fops .ok (runImpl (Prepare ops w s0).state acts).1).2
      = (flushTablets (runImpl (Prepare ops w s0).state acts).1.tablets fops).2 := by
    simp [Flushed, Status.isOk]
  rw [h4, h3]
  rfl

/-- Witness for `flushed_check_unreachable`: a batch admitted on shard 1,
with an unrelated heartbeat completion in between, flushes without
tripping the check. -/
theorem flushed_check_unreachable_witness :
    ((Flushed [⟨1, true⟩] .ok
        (runImpl (Prepare [1] 0 { initialImpl false with ready := true }).state
          [.heartbeatDone .ok .PENDING]).1).2.all
        (fun ev => !ev.isCheckFailed)) = true :=
  flushed_check_unreachable { initialImpl false with ready := true } [1] 0
    [.heartbeatDone .ok .PENDING] [⟨1, true⟩] (by decide) (by decide)

end YBTxn
